import Mathlib

/-!
# BajajTrade — formal model of the order-execution and portfolio-accounting core

A shallow embedding, in Lean 4, of the core of the BajajTrade backend
(`backend/order_manager.py`, the ledger logic of `backend/main.py`,
`backend/price_simulator.py` and `backend/sdk.py`).

Modelling conventions:
* Python `float` prices are idealised as exact rationals (`ℚ`);
  `round(x, 2)` becomes `round2` below (2-decimal rounding; Python's
  half-even tie rule is idealised as half-up — no statement here touches
  a tie).
* Python `dict`s keyed by strings become association lists
  (`List (String × α)`) with first-occurrence lookup (`alookup`) and
  in-place update (`setKey`), which preserves insertion order exactly as
  CPython dicts do.
* Timestamps (`datetime.now().isoformat()`) are opaque ticks (`ℕ`);
  random draws (`random.uniform`, `random.gauss`, …) are oracle
  parameters, since each is read exactly once per call.
* In-place mutation of a shared order dict becomes explicit state
  passing: every operation returns the updated database.
-/

namespace BajajTrade

/-! ## Generic helpers -/

/-- Python `round(x, 2)`: round to 2 decimal places (ties idealised half-up). -/
def round2 (x : ℚ) : ℚ := (round (x * 100) : ℚ) / 100

/-- Python `int(x)`: truncation toward zero. -/
def pyTrunc (x : ℚ) : ℤ := if 0 ≤ x then ⌊x⌋ else -⌊-x⌋

/-- Python `str.upper()` (ASCII idealisation). -/
def pyUpper (s : String) : String := ⟨s.data.map Char.toUpper⟩

/-- Python `l[-n:]`: the last `n` elements of a list. -/
def lastN (n : ℕ) (l : List ℚ) : List ℚ := l.drop (l.length - n)

/-- Python `max(l)` on a nonempty list (0 on the empty list, unreachable). -/
def listMax : List ℚ → ℚ
  | [] => 0
  | x :: xs => xs.foldl max x

/-- Python `min(l)` on a nonempty list (0 on the empty list, unreachable). -/
def listMin : List ℚ → ℚ
  | [] => 0
  | x :: xs => xs.foldl min x

/-- Dictionary lookup: first binding of the key, as in a Python dict read. -/
def alookup {α : Type} : List (String × α) → String → Option α
  | [], _ => none
  | (k, v) :: t, k0 => if k0 = k then some v else alookup t k0

/-- Dictionary write `d[k] = v`: update the first binding in place, or append. -/
def setKey {α : Type} : List (String × α) → String → α → List (String × α)
  | [], k, v => [(k, v)]
  | (k0, v0) :: t, k, v => if k0 = k then (k0, v) :: t else (k0, v0) :: setKey t k v

/-! ## `order_manager.py`: statuses, sides, styles, orders -/

/-- `OrderStatus` enum of `order_manager.py`. -/
inductive OrderStatus where
  | NEW
  | PLACED
  | EXECUTED
  | CANCELLED
deriving DecidableEq

/-- `OrderType` enum of `order_manager.py` (order side). -/
inductive Side where
  | BUY
  | SELL
deriving DecidableEq

/-- `OrderStyle` enum of `order_manager.py`. -/
inductive Style where
  | MARKET
  | LIMIT
deriving DecidableEq

/-- The order dict built by `OrderManager.create_order`. `price` is the
optional limit price; `executedPrice`/`executedAt` are `None` until
execution. -/
structure Order where
  orderId : String
  symbol : String
  quantity : ℤ
  side : Side
  style : Style
  price : Option ℚ
  status : OrderStatus
  createdAt : ℕ
  executedPrice : Option ℚ
  executedAt : Option ℕ
deriving DecidableEq

/-- `OrderManager.create_order`: build a fresh order dict with status NEW.
The source performs no validation here (validation lives in the pydantic
`OrderRequest` model of `main.py`, see `validateOrderRequest`). -/
def create_order (order_id symbol : String) (quantity : ℤ) (side : Side)
    (style : Style) (price : Option ℚ) (t : ℕ) : Order :=
  { orderId := order_id
    symbol := symbol
    quantity := quantity
    side := side
    style := style
    price := price
    status := OrderStatus.NEW
    createdAt := t
    executedPrice := none
    executedAt := none }

/-- `OrderManager.check_limit_execution`: BUY executes iff
`current_price ≤ limit_price`; anything else (SELL) iff
`current_price ≥ limit_price`. -/
def check_limit_execution (side : Side) (current_price limit_price : ℚ) : Bool :=
  match side with
  | Side.BUY => decide (current_price ≤ limit_price)
  | Side.SELL => decide (current_price ≥ limit_price)

/-- `OrderManager.execute_market_order`: set status PLACED, then (after the
simulated delay) EXECUTED at the market price rounded to 2 decimals.
Also returns the list of statuses assigned, in order, for trace reasoning. -/
def execute_market_order (o : Order) (current_price : ℚ) (t : ℕ) :
    Order × List OrderStatus :=
  let o1 := { o with status := OrderStatus.PLACED }
  let o2 := { o1 with
    status := OrderStatus.EXECUTED
    executedPrice := some (round2 current_price)
    executedAt := some t }
  (o2, [OrderStatus.PLACED, OrderStatus.EXECUTED])

/-- `OrderManager.execute_limit_order`: set status PLACED; if the limit
condition holds, EXECUTED at the limit price (not the quote) rounded to 2
decimals. The caller (`place_order`) only reaches this with `price` set,
so the `getD` default is never read in composed flows. Also returns the
statuses assigned. -/
def execute_limit_order (o : Order) (current_price : ℚ) (t : ℕ) :
    Order × List OrderStatus :=
  let o1 := { o with status := OrderStatus.PLACED }
  let limit_price := o.price.getD 0
  if check_limit_execution o.side current_price limit_price then
    ({ o1 with
        status := OrderStatus.EXECUTED
        executedPrice := some (round2 limit_price)
        executedAt := some t },
      [OrderStatus.PLACED, OrderStatus.EXECUTED])
  else
    (o1, [OrderStatus.PLACED])

/-! ## `main.py`: database, portfolio accounting, the order endpoints -/

/-- A `db["portfolio"]` entry. -/
structure Position where
  symbol : String
  quantity : ℤ
  avgPrice : ℚ
deriving DecidableEq

/-- A `db["trades"]` entry as built by `process_executed_order`. -/
structure Trade where
  id : String
  symbol : String
  qty : ℤ
  price : ℚ
  side : Side
  pnl : ℚ
  executedAt : Option ℕ
deriving DecidableEq

/-- The global `db` of `main.py`: trade history (newest first), per-symbol
positions, the realized-P&L accumulator `stats["total_pnl"]`, and the
order store. -/
structure DB where
  trades : List Trade
  portfolio : List (String × Position)
  total_pnl : ℚ
  orders : List (String × Order)
deriving DecidableEq

/-- Domain errors surfaced as `HTTPException`s by `main.py`.
`internalTypeError` stands for the unhandled `TypeError` Python would
raise if a LIMIT order reached price comparison with `price = None`
(unreachable behind request validation). -/
inductive ApiError where
  | invalidSymbol
  | insufficientShares
  | internalTypeError
deriving DecidableEq

/-- The fixed instrument set of `get_instruments` (symbols only). -/
def instruments : List String := ["AAPL", "TSLA", "IBM"]

/-- `OrderManager.cancel_order`: unknown id, or a terminal
(EXECUTED/CANCELLED) status, fails returning nothing and mutating nothing;
otherwise the stored order's status is set to CANCELLED and the updated
order is returned. -/
def cancel_order (db : DB) (oid : String) : DB × Option Order :=
  match alookup db.orders oid with
  | none => (db, none)
  | some o =>
    if o.status = OrderStatus.EXECUTED ∨ o.status = OrderStatus.CANCELLED then
      (db, none)
    else
      let o2 := { o with status := OrderStatus.CANCELLED }
      ({ db with orders := setKey db.orders oid o2 }, some o2)

/-- `OrderManager.get_order`. -/
def get_order (db : DB) (oid : String) : Option Order :=
  alookup db.orders oid

/-- `process_executed_order` of `main.py`: on an EXECUTED order, lazily
create the symbol's portfolio entry, apply BUY average-cost accounting or
SELL realized-P&L accounting, and push a trade record to the front of the
history. A SELL whose quantity exceeds the position's quantity flips the
order to CANCELLED, raises (here: returns) the insufficient-shares error,
and performs no further mutation; the write-back at the order's id models
Python's in-place mutation of the order dict, which `place_order` shares
with the order store. Executed orders always carry an executed price, so
the `getD 0` default is never read in composed flows. -/
def process_executed_order (db : DB) (o : Order) : DB × Option ApiError :=
  if o.status ≠ OrderStatus.EXECUTED then (db, none)
  else
    let executed_price := o.executedPrice.getD 0
    let symbol := o.symbol
    let quantity := o.quantity
    let db1 :=
      match alookup db.portfolio symbol with
      | none => { db with portfolio := setKey db.portfolio symbol ⟨symbol, 0, 0⟩ }
      | some _ => db
    let p : Position := (alookup db1.portfolio symbol).getD ⟨symbol, 0, 0⟩
    match o.side with
    | Side.BUY =>
      let p1 :=
        if p.quantity = 0 then { p with avgPrice := executed_price }
        else { p with avgPrice :=
          ((p.quantity : ℚ) * p.avgPrice + (quantity : ℚ) * executed_price) /
            ((p.quantity : ℚ) + (quantity : ℚ)) }
      let p2 := { p1 with quantity := p1.quantity + quantity }
      let db2 := { db1 with portfolio := setKey db1.portfolio symbol p2 }
      ({ db2 with trades :=
          ⟨o.orderId, symbol, quantity, executed_price, o.side, round2 0, o.executedAt⟩
            :: db2.trades }, none)
    | Side.SELL =>
      if p.quantity < quantity then
        let o2 := { o with status := OrderStatus.CANCELLED }
        ({ db1 with orders := setKey db1.orders o.orderId o2 },
          some ApiError.insufficientShares)
      else
        let pnl := (executed_price - p.avgPrice) * (quantity : ℚ)
        let db2 := { db1 with total_pnl := db1.total_pnl + pnl }
        let p1 : Position := { p with quantity := p.quantity - quantity }
        let p2 := if p1.quantity = 0 then { p1 with avgPrice := 0 } else p1
        let db3 := { db2 with portfolio := setKey db2.portfolio symbol p2 }
        ({ db3 with trades :=
            ⟨o.orderId, symbol, quantity, executed_price, o.side, round2 pnl, o.executedAt⟩
              :: db3.trades }, none)

/-- A validated order-submission request as it reaches `place_order`
(after the pydantic `OrderRequest` validators of `main.py`, which
uppercase and restrict `side`/`style`). -/
structure OrderRequest where
  symbol : String
  quantity : ℤ
  side : Side
  style : Style
  price : Option ℚ
deriving DecidableEq

/-- The shared tail of `place_order`'s two executing branches: store the
executed order, run `process_executed_order`, and either surface its
error (the order has just been force-cancelled) or answer with the shared
order dict's status. `r` is the (order, assigned statuses) result of an
execute call. -/
def execAndProcess (db1 : DB) (oid : String) (r : Order × List OrderStatus) :
    DB × Except ApiError OrderStatus × List OrderStatus :=
  let db2 := { db1 with orders := setKey db1.orders oid r.1 }
  let pr := process_executed_order db2 r.1
  match pr.2 with
  | some e => (pr.1, Except.error e, OrderStatus.NEW :: r.2 ++ [OrderStatus.CANCELLED])
  | none => (pr.1, Except.ok r.1.status, OrderStatus.NEW :: r.2)

/-- The `place_order` endpoint of `main.py`: validate the symbol, create a
NEW order, then MARKET orders execute at the quote and are processed;
LIMIT orders execute at the limit price iff `check_limit_execution` holds
at the quote, else nothing further happens. Returns the updated database,
the response (the shared order dict's status, or the raised error), and
the ordered list of statuses assigned to this order during the call.
`quote` is the `get_live_price` result; `oid` the generated UUID;
`tC`/`tE` the creation/execution timestamps. -/
def place_order (db : DB) (req : OrderRequest) (quote : ℚ) (oid : String)
    (tC tE : ℕ) : DB × Except ApiError OrderStatus × List OrderStatus :=
  if req.symbol ∉ instruments then
    (db, Except.error ApiError.invalidSymbol, [])
  else
    let o := create_order oid req.symbol req.quantity req.side req.style req.price tC
    let db1 := { db with orders := setKey db.orders oid o }
    match req.style with
    | Style.MARKET =>
      execAndProcess db1 oid (execute_market_order o quote tE)
    | Style.LIMIT =>
      match req.price with
      | none => (db1, Except.error ApiError.internalTypeError, [OrderStatus.NEW])
      | some lp =>
        if check_limit_execution req.side quote lp then
          execAndProcess db1 oid (execute_limit_order o quote tE)
        else
          (db1, Except.ok o.status, [OrderStatus.NEW])

/-- The pydantic `OrderRequest` model of `main.py`, over the raw request
fields. `price` distinguishes an omitted key (`none`), an explicit null
(`some none`) and a supplied number (`some (some v)`), because pydantic
treats them differently: `quantity` must be positive, `side`/`style` must
uppercase into the respective enums, a supplied number must be positive
(`Field(None, gt=0)` checks only supplied non-null values), and the
`@validator('price')` — declared without `always=True`, so SKIPPED when
the price key is omitted — rejects an explicit null on a LIMIT order.
An omitted price on a LIMIT order therefore passes validation.
`True` means the request passes validation. -/
def validateOrderRequest (quantity : ℤ) (side style : String)
    (price : Option (Option ℚ)) : Bool :=
  decide (0 < quantity) &&
  (pyUpper side == "BUY" || pyUpper side == "SELL") &&
  (pyUpper style == "MARKET" || pyUpper style == "LIMIT") &&
  (match price with
   | some (some v) => decide (0 < v)
   | _ => true) &&
  (match price with
   | some none => !(pyUpper style == "LIMIT")
   | _ => true)

/-- `n` successive calls of the cancel endpoint on one order id, returning
the final database and the statuses assigned to the order by those calls
(one CANCELLED per successful cancel). -/
def cancelN : DB → String → ℕ → DB × List OrderStatus
  | db, _, 0 => (db, [])
  | db, oid, n + 1 =>
    match cancel_order db oid with
    | (db1, some _) =>
      let r := cancelN db1 oid n
      (r.1, OrderStatus.CANCELLED :: r.2)
    | (db1, none) => cancelN db1 oid n

/-- A complete client-visible run of one order: a `place_order` submission
followed by `n` cancel calls on the returned id; yields the final database
and the full sequence of statuses the order was assigned. These are
exactly the operation sequences the endpoints of `main.py` can apply to a
single order. -/
def submitThenCancels (db : DB) (req : OrderRequest) (quote : ℚ)
    (oid : String) (tC tE : ℕ) (n : ℕ) : DB × List OrderStatus :=
  let r := place_order db req quote oid tC tE
  let c := cancelN r.1 oid n
  (c.1, r.2.2 ++ c.2)

/-- The database after processing a list of executed orders in sequence
(errors discarded, partial mutations kept, as in the running server). -/
def processAll (db : DB) (os : List Order) : DB :=
  os.foldl (fun d o => (process_executed_order d o).1) db

/-- The exact (unrounded) realized P&L that processing `o` against `db`
contributes: `(executedPrice − averageCostAtSaleTime) · quantity` for a
SELL that passes the sufficiency check, 0 otherwise. -/
def sellPnl (db : DB) (o : Order) : ℚ :=
  let p : Position := (alookup db.portfolio o.symbol).getD ⟨o.symbol, 0, 0⟩
  if o.status = OrderStatus.EXECUTED ∧ o.side = Side.SELL ∧ o.quantity ≤ p.quantity
  then (o.executedPrice.getD 0 - p.avgPrice) * (o.quantity : ℚ)
  else 0

/-- The sum of the exact realized P&L of each step of a processing
sequence, each taken against the database state at its own step. -/
def sumSellPnl (db : DB) : List Order → ℚ
  | [] => 0
  | o :: os => sellPnl db o + sumSellPnl (process_executed_order db o).1 os

/-- The portfolio invariant of the spec: every position has nonnegative
quantity, and a position at quantity 0 has average cost 0. -/
def PortfolioInv (db : DB) : Prop :=
  ∀ pr ∈ db.portfolio, 0 ≤ (pr : String × Position).2.quantity ∧
    (pr.2.quantity = 0 → pr.2.avgPrice = 0)

/-! ## `price_simulator.py` and `sdk.py`: the price layer -/

/-- The quote dict returned by `PriceSimulator.update_price` /
`get_price_data`. -/
structure Quote where
  price : ℚ
  change : ℚ
  changePercent : ℚ
  volume : ℤ
  high : ℚ
  low : ℚ
  bid : ℚ
  ask : ℚ
  priceHistory : List ℚ
deriving DecidableEq

/-- The state of `PriceSimulator` (the `last_update` timestamps carry no
pricing behaviour and are kept as ticks). -/
structure SimState where
  base_prices : List (String × ℚ)
  current_prices : List (String × ℚ)
  price_history : List (String × List ℚ)
  volatility : List (String × ℚ)
  volumes : List (String × ℤ)
  last_update : List (String × ℕ)
deriving DecidableEq

/-- One call's worth of random draws, as oracle inputs: `drift` for
`random.uniform(-0.0001, 0.0003)`, `shock` for `random.gauss(0, vol)`,
`volFactor` for `random.uniform(0.7, 1.3)`, `spread` for
`random.uniform(0.001, 0.005)`, `sync` for the 10% resync coin flip, and
`vol0` for `random.randint(1000, 10000)`. -/
structure Rand where
  drift : ℚ
  shock : ℚ
  volFactor : ℚ
  spread : ℚ
  sync : Bool
  vol0 : ℤ

/-- `PriceSimulator.__init__`: the three seeded symbols with their base
prices, volatilities and singleton histories (volumes and timestamps are
random/clock draws, passed in). -/
def initialSim (volA volT volI : ℤ) (t : ℕ) : SimState :=
  { base_prices := [("AAPL", 260), ("TSLA", 430), ("IBM", 295)]
    current_prices := [("AAPL", 260), ("TSLA", 430), ("IBM", 295)]
    price_history := [("AAPL", [260]), ("TSLA", [430]), ("IBM", [295])]
    volatility := [("AAPL", 0.02), ("TSLA", 0.04), ("IBM", 0.015)]
    volumes := [("AAPL", volA), ("TSLA", volT), ("IBM", volI)]
    last_update := [("AAPL", t), ("TSLA", t), ("IBM", t)] }

/-- `PriceSimulator.initialize_from_api`: seed an unknown symbol from a
real quote; for a known symbol, resync base and current price with
probability ~10% (the `r.sync` draw). -/
def initialize_from_api (s : SimState) (symbol : String) (real_price : ℚ)
    (r : Rand) (t : ℕ) : SimState :=
  match alookup s.current_prices symbol with
  | none =>
    { s with
      base_prices := setKey s.base_prices symbol real_price
      current_prices := setKey s.current_prices symbol real_price
      price_history := setKey s.price_history symbol [real_price]
      volatility := setKey s.volatility symbol 0.02
      volumes := setKey s.volumes symbol r.vol0
      last_update := setKey s.last_update symbol t }
  | some _ =>
    if r.sync then
      { s with
        base_prices := setKey s.base_prices symbol real_price
        current_prices := setKey s.current_prices symbol real_price }
    else s

/-- `PriceSimulator.update_price`: `None` for an unknown symbol; otherwise
one geometric-Brownian-motion step, clamped to ±50% of the previous
price, with history capped at 100 points (FIFO), derived volume, session
high/low over the last 20 points, and a symmetric bid/ask spread. All
monetary outputs rounded to 2 decimals at the boundary. -/
def update_price (s : SimState) (symbol : String) (r : Rand) :
    Option (SimState × Quote) :=
  match alookup s.current_prices symbol with
  | none => none
  | some current_price =>
    let price_change_percent := r.drift + r.shock
    let new_price0 := current_price * (1 + price_change_percent)
    let new_price1 := max new_price0 (current_price * 0.5)
    let new_price := min new_price1 (current_price * 1.5)
    let price_change := new_price - current_price
    let change_percent := price_change / current_price * 100
    let hist0 := (alookup s.price_history symbol).getD []
    let hist1 := hist0 ++ [new_price]
    let hist := if hist1.length > 100 then hist1.drop 1 else hist1
    let volume_multiplier := 1 + |change_percent| / 10
    let base_volume := (alookup s.volumes symbol).getD 0
    let volume := pyTrunc ((base_volume : ℚ) * r.volFactor * volume_multiplier)
    let session_high := if hist.length > 1 then listMax (lastN 20 hist) else new_price
    let session_low := if hist.length > 1 then listMin (lastN 20 hist) else new_price
    let bid := new_price * (1 - r.spread / 2)
    let ask := new_price * (1 + r.spread / 2)
    let s1 :=
      { s with
        current_prices := setKey s.current_prices symbol new_price
        price_history := setKey s.price_history symbol hist
        volumes := setKey s.volumes symbol volume }
    some (s1,
      { price := round2 new_price
        change := round2 price_change
        changePercent := round2 change_percent
        volume := volume
        high := round2 session_high
        low := round2 session_low
        bid := round2 bid
        ask := round2 ask
        priceHistory := lastN 20 hist })

/-- `PriceSimulator.get_price_data`: `None` for an unknown symbol;
otherwise the current quote without advancing the price (change metrics
relative to the base price; high/low over the whole history). -/
def sim_get_price_data (s : SimState) (symbol : String) (r : Rand) : Option Quote :=
  match alookup s.current_prices symbol with
  | none => none
  | some current_price =>
    let base_price := (alookup s.base_prices symbol).getD 0
    let total_change := current_price - base_price
    let total_change_percent := total_change / base_price * 100
    let hist := (alookup s.price_history symbol).getD []
    let session_high := if hist.length > 1 then listMax hist else current_price
    let session_low := if hist.length > 1 then listMin hist else current_price
    let bid := current_price * (1 - r.spread / 2)
    let ask := current_price * (1 + r.spread / 2)
    some
      { price := round2 current_price
        change := round2 total_change
        changePercent := round2 total_change_percent
        volume := (alookup s.volumes symbol).getD 0
        high := round2 session_high
        low := round2 session_low
        bid := round2 bid
        ask := round2 ask
        priceHistory := lastN 20 hist }

/-- The hard-coded fallback quote of `sdk.get_price_data`. -/
def fallbackQuote : Quote :=
  { price := 150
    change := 0
    changePercent := 0
    volume := 5000
    high := 150
    low := 150
    bid := 149.9
    ask := 150.1
    priceHistory := [150] }

/-- `sdk.get_live_price`: uppercase the symbol, optionally seed the
simulator from the external quote (`api`, `None` when the rate-limited
lookup is unavailable), then step the simulator; an unknown symbol falls
back to the hard-coded price 150.0. Total: every call returns a price. -/
def sdk_get_live_price (s : SimState) (api : Option ℚ) (r : Rand) (t : ℕ)
    (symbol : String) : SimState × ℚ :=
  let sym := pyUpper symbol
  let s1 :=
    match api with
    | some rp => initialize_from_api s sym rp r t
    | none => s
  match update_price s1 sym r with
  | some (s2, q) => (s2, q.price)
  | none => (s1, 150)

/-- `sdk.get_price_data`: as `sdk_get_live_price`, but returning the full
quote, with the hard-coded fallback quote for an unknown symbol. -/
def sdk_get_price_data (s : SimState) (api : Option ℚ) (r : Rand) (t : ℕ)
    (symbol : String) : SimState × Quote :=
  let sym := pyUpper symbol
  let s1 :=
    match api with
    | some rp => initialize_from_api s sym rp r t
    | none => s
  match update_price s1 sym r with
  | some (s2, q) => (s2, q)
  | none => (s1, fallbackQuote)

/-! ## Derived notions and concrete fixtures used by the statements -/

/-- The position the accounting code works with: the stored entry, or the
freshly initialised `(0, 0)` entry for a symbol without one. -/
def getPos (db : DB) (s : String) : Position :=
  (alookup db.portfolio s).getD ⟨s, 0, 0⟩

/-- The status sequences the original claim allows: prefixes of
`NEW, PLACED, EXECUTED` and of `NEW, PLACED, CANCELLED`. -/
def claimAllowedTrace (t : List OrderStatus) : Prop :=
  List.isPrefixOf t
    [OrderStatus.NEW, OrderStatus.PLACED, OrderStatus.EXECUTED] = true ∨
  List.isPrefixOf t
    [OrderStatus.NEW, OrderStatus.PLACED, OrderStatus.CANCELLED] = true

/-- The status sequences the code actually produces on a full run: prefixes
of `NEW, PLACED, EXECUTED`, the direct cancellation `NEW, CANCELLED`, and
the forced cancellation `NEW, PLACED, EXECUTED, CANCELLED` of a rejected
SELL. -/
def amendedAllowedTrace (t : List OrderStatus) : Prop :=
  List.isPrefixOf t
    [OrderStatus.NEW, OrderStatus.PLACED, OrderStatus.EXECUTED] = true ∨
  t = [OrderStatus.NEW, OrderStatus.CANCELLED] ∨
  t = [OrderStatus.NEW, OrderStatus.PLACED, OrderStatus.EXECUTED,
       OrderStatus.CANCELLED]

/-- The empty database the server starts with. -/
def dbEmpty : DB := { trades := [], portfolio := [], total_pnl := 0, orders := [] }

/-- A MARKET SELL request for 5 AAPL (Scenario 3 of the spec). -/
def reqSellFive : OrderRequest :=
  { symbol := "AAPL", quantity := 5, side := Side.SELL, style := Style.MARKET,
    price := none }

/-- A LIMIT BUY request for TSLA at limit price 400 (Scenario 4). -/
def reqLim400 : OrderRequest :=
  { symbol := "TSLA", quantity := 1, side := Side.BUY, style := Style.LIMIT,
    price := some 400 }

/-- A concrete LIMIT BUY order at limit price 450 (Scenario 4). -/
def orderLim450 : Order :=
  create_order "o3" "TSLA" 1 Side.BUY Style.LIMIT (some 450) 0

/-- An already-executed MARKET SELL of 5 AAPL at price 100 against no
position (Scenario 3, as it reaches `process_executed_order`). -/
def orderSellNoPos : Order :=
  { orderId := "s0"
    symbol := "AAPL"
    quantity := 5
    side := Side.SELL
    style := Style.MARKET
    price := none
    status := OrderStatus.EXECUTED
    createdAt := 0
    executedPrice := some 100
    executedAt := some 1 }

/-- An executed BUY of 1 AAPL at 10. -/
def buyTen : Order :=
  { orderId := "b1"
    symbol := "AAPL"
    quantity := 1
    side := Side.BUY
    style := Style.MARKET
    price := none
    status := OrderStatus.EXECUTED
    createdAt := 0
    executedPrice := some 10
    executedAt := some 1 }

/-- An executed BUY of 2 AAPL at 11. -/
def buyEleven : Order :=
  { orderId := "b2"
    symbol := "AAPL"
    quantity := 2
    side := Side.BUY
    style := Style.MARKET
    price := none
    status := OrderStatus.EXECUTED
    createdAt := 0
    executedPrice := some 11
    executedAt := some 1 }

/-- An executed SELL of 1 AAPL at 12. -/
def sellTwelve : Order :=
  { orderId := "s1"
    symbol := "AAPL"
    quantity := 1
    side := Side.SELL
    style := Style.MARKET
    price := none
    status := OrderStatus.EXECUTED
    createdAt := 0
    executedPrice := some 12
    executedAt := some 1 }

/-- The ledger after buying 1 AAPL at 10 and 2 AAPL at 11: position
quantity 3 at average cost 32/3. -/
def dbAfterBuys : DB := processAll dbEmpty [buyTen, buyEleven]

/-! ## Association-list lemmas -/

theorem alookup_setKey_self {α : Type} (l : List (String × α)) (k : String) (v : α) :
    alookup (setKey l k v) k = some v := by
  induction l with
  | nil => simp [alookup, setKey]
  | cons hd tl ih =>
    obtain ⟨k0, v0⟩ := hd
    by_cases h : k0 = k
    · subst h
      simp [alookup, setKey]
    · simp [alookup, setKey, h, Ne.symm h, ih]

theorem alookup_setKey_ne {α : Type} (l : List (String × α)) (k k2 : String) (v : α)
    (h : k2 ≠ k) : alookup (setKey l k v) k2 = alookup l k2 := by
  induction l with
  | nil => simp [alookup, setKey, h]
  | cons hd tl ih =>
    obtain ⟨k0, v0⟩ := hd
    by_cases h0 : k0 = k
    · subst h0
      simp [alookup, setKey, h]
    · simp only [setKey, if_neg h0, alookup]
      by_cases h2 : k2 = k0 <;> simp [h2, ih]

theorem mem_setKey {α : Type} {l : List (String × α)} {k : String} {v : α}
    {pr : String × α} (h : pr ∈ setKey l k v) : pr = (k, v) ∨ pr ∈ l := by
  induction l with
  | nil =>
    simp only [setKey, List.mem_singleton] at h
    exact Or.inl h
  | cons hd tl ih =>
    obtain ⟨k0, v0⟩ := hd
    by_cases h0 : k0 = k
    · subst h0
      rw [setKey, if_pos rfl] at h
      rcases List.mem_cons.mp h with h | h
      · exact Or.inl h
      · exact Or.inr (List.mem_cons_of_mem _ h)
    · rw [setKey, if_neg h0] at h
      rcases List.mem_cons.mp h with h | h
      · exact Or.inr (by simp [h])
      · rcases ih h with h2 | h2
        · exact Or.inl h2
        · exact Or.inr (List.mem_cons_of_mem _ h2)

/-- `alookup` only returns values stored in the list. -/
theorem mem_of_alookup_eq_some {α : Type} {l : List (String × α)} {k : String} {v : α}
    (h : alookup l k = some v) : (k, v) ∈ l := by
  induction l with
  | nil => simp [alookup] at h
  | cons hd tl ih =>
    obtain ⟨k0, v0⟩ := hd
    by_cases h0 : k = k0
    · subst h0
      rw [alookup, if_pos rfl] at h
      simp [(Option.some.injEq _ _ ▸ h : v0 = v).symm]
    · rw [alookup, if_neg h0] at h
      exact List.mem_cons_of_mem _ (ih h)

/-! ## Rounding facts -/

theorem round2_zero : round2 0 = 0 := by
  simp [round2]

/-! ## One-step and folded total-P&L accounting -/

/-- One processing step moves `total_pnl` by exactly the step's
`sellPnl` — BUYs, rejected SELLs and non-executed orders contribute 0,
accepted SELLs contribute the exact unrounded realized P&L. -/
theorem process_total_step (db : DB) (o : Order) :
    (process_executed_order db o).1.total_pnl = db.total_pnl + sellPnl db o := by
  rw [process_executed_order, sellPnl]
  by_cases hst : o.status = OrderStatus.EXECUTED
  · simp only [hst, ne_eq, not_true_eq_false, if_false]
    rcases hpf : alookup db.portfolio o.symbol with _ | p
    · cases hside : o.side
      · simp [hpf, hside, alookup_setKey_self]
      · have hq : ¬(0 : ℤ) ≥ o.quantity ∨ (0 : ℤ) ≥ o.quantity := (em _).symm
        simp only [hpf, hside, alookup_setKey_self, Option.getD_some]
        split
        · rename_i hlt
          simp [show ¬(o.quantity ≤ (0:ℤ)) from not_le.mpr hlt, hst]
        · rename_i hge
          simp [show o.quantity ≤ (0:ℤ) from not_lt.mp hge, hst]
    · cases hside : o.side
      · simp [hpf, hside, alookup_setKey_self]
      · simp only [hpf, hside, Option.getD_some]
        split
        · rename_i hlt
          simp [show ¬(o.quantity ≤ p.quantity) from not_le.mpr hlt, hst]
        · rename_i hge
          simp [show o.quantity ≤ p.quantity from not_lt.mp hge, hst]
  · simp [hst]

/-- Folded form: after processing any list of executed orders, the
realized-P&L accumulator equals its initial value plus the sum of the
per-step exact SELL P&Ls. -/
theorem processAll_total (db : DB) (os : List Order) :
    (processAll db os).total_pnl = db.total_pnl + sumSellPnl db os := by
  induction os generalizing db with
  | nil => simp [processAll, sumSellPnl]
  | cons o os ih =>
    rw [sumSellPnl, processAll, List.foldl_cons]
    have h2 := ih (process_executed_order db o).1
    rw [processAll] at h2
    rw [h2, process_total_step]
    ring

/-! ## Cancel-run and processing characterisation lemmas -/

/-- Cancelling an order that is absent or already terminal, any number of
times, changes nothing and assigns no status. -/
theorem cancelN_of_terminal (db : DB) (oid : String) (m : ℕ)
    (h : ∀ o, alookup db.orders oid = some o →
      o.status = OrderStatus.EXECUTED ∨ o.status = OrderStatus.CANCELLED) :
    cancelN db oid m = (db, []) := by
  induction m with
  | zero => rfl
  | succ m ih =>
    rw [cancelN, cancel_order]
    rcases hl : alookup db.orders oid with _ | o
    · simp [ih]
    · simp [h o hl, ih]

/-- Cancelling a live (NEW or PLACED) order assigns CANCELLED once; all
further cancels assign nothing. -/
theorem cancelN_trace_of_live (db : DB) (oid : String) (o : Order) (m : ℕ)
    (hsome : alookup db.orders oid = some o)
    (hlive : ¬(o.status = OrderStatus.EXECUTED ∨ o.status = OrderStatus.CANCELLED)) :
    (cancelN db oid m).2 = if m = 0 then [] else [OrderStatus.CANCELLED] := by
  cases m with
  | zero => rfl
  | succ m =>
    rw [cancelN, cancel_order, hsome]
    have hrest : cancelN
        { db with orders := setKey db.orders oid { o with status := OrderStatus.CANCELLED } }
        oid m = (_, []) :=
      cancelN_of_terminal _ _ _ (fun o3 h3 => by
        rw [alookup_setKey_self] at h3
        cases h3
        exact Or.inr rfl)
    simp [hlive, hrest]

/-- Processing an executed SELL that exceeds the position: the error and
the forced cancellation of the stored order. -/
theorem process_insufficient (db : DB) (o : Order)
    (hst : o.status = OrderStatus.EXECUTED) (hside : o.side = Side.SELL)
    (hq : (getPos db o.symbol).quantity < o.quantity) :
    (process_executed_order db o).2 = some ApiError.insufficientShares ∧
    (process_executed_order db o).1.orders =
      setKey db.orders o.orderId { o with status := OrderStatus.CANCELLED } := by
  rw [process_executed_order]
  rcases hpf : alookup db.portfolio o.symbol with _ | p <;>
    rw [getPos, hpf] at hq <;>
    simp only [Option.getD_some, Option.getD_none] at hq <;>
    simp [hst, hside, hpf, hq, alookup_setKey_self]

/-- Processing an executed order that the accountant accepts returns no
error and leaves the order store untouched. -/
theorem process_success (db : DB) (o : Order)
    (hst : o.status = OrderStatus.EXECUTED)
    (hok : ¬(o.side = Side.SELL ∧ (getPos db o.symbol).quantity < o.quantity)) :
    (process_executed_order db o).2 = none ∧
    (process_executed_order db o).1.orders = db.orders := by
  rw [process_executed_order]
  cases hside : o.side
  · rcases hpf : alookup db.portfolio o.symbol with _ | p <;>
      simp [hst, hside, hpf, alookup_setKey_self]
  · have hq : ¬((getPos db o.symbol).quantity < o.quantity) := fun h => hok ⟨hside, h⟩
    rcases hpf : alookup db.portfolio o.symbol with _ | p <;>
      rw [getPos, hpf] at hq <;>
      simp only [Option.getD_some, Option.getD_none] at hq <;>
      simp [hst, hside, hpf, hq, alookup_setKey_self]

/-- The two outcomes of storing an executed order and processing it: an
accepted trade leaves the stored order EXECUTED and assigns no further
status; a rejected SELL leaves it CANCELLED and assigns CANCELLED. -/
theorem execAndProcess_char (db1 : DB) (oid : String) (r : Order × List OrderStatus)
    (hst : r.1.status = OrderStatus.EXECUTED) (hid : r.1.orderId = oid) :
    (¬(r.1.side = Side.SELL ∧ (getPos db1 r.1.symbol).quantity < r.1.quantity) →
      (execAndProcess db1 oid r).2.2 = OrderStatus.NEW :: r.2 ∧
      (alookup (execAndProcess db1 oid r).1.orders oid).map Order.status =
        some OrderStatus.EXECUTED) ∧
    ((r.1.side = Side.SELL ∧ (getPos db1 r.1.symbol).quantity < r.1.quantity) →
      (execAndProcess db1 oid r).2.2 =
        OrderStatus.NEW :: r.2 ++ [OrderStatus.CANCELLED] ∧
      (alookup (execAndProcess db1 oid r).1.orders oid).map Order.status =
        some OrderStatus.CANCELLED) := by
  constructor
  · intro hok
    have hs := process_success { db1 with orders := setKey db1.orders oid r.1 } r.1 hst hok
    rw [execAndProcess]
    simp [hs.1, hs.2, alookup_setKey_self, hst]
  · intro hbad
    have hi := process_insufficient { db1 with orders := setKey db1.orders oid r.1 } r.1
      hst hbad.1 hbad.2
    rw [execAndProcess]
    rw [hid] at hi
    simp [hi.1, hi.2, alookup_setKey_self]

/-! ## Theorems about the claims -/

/-- C4: a submitted LIMIT order's execution condition holds iff
(side = BUY and quote ≤ limitPrice) or (side = SELL and quote ≥ limitPrice);
when it holds the order becomes EXECUTED with executedPrice the limit
price rounded to 2 decimals — not the market quote. -/
theorem limit_execution_condition (o : Order) (current : ℚ) (t : ℕ) (lp : ℚ)
    (hp : o.price = some lp) :
    (check_limit_execution o.side current lp = true ↔
      ((o.side = Side.BUY ∧ current ≤ lp) ∨ (o.side = Side.SELL ∧ lp ≤ current))) ∧
    ((execute_limit_order o current t).1.status = OrderStatus.EXECUTED ↔
      check_limit_execution o.side current lp = true) ∧
    (check_limit_execution o.side current lp = true →
      (execute_limit_order o current t).1.executedPrice = some (round2 lp)) := by
  refine ⟨?_, ?_, ?_⟩
  · cases hs : o.side <;> simp [check_limit_execution, hs, ge_iff_le]
  · rw [execute_limit_order]
    simp only [hp, Option.getD_some]
    split <;> rename_i hc <;> simp [hc]
  · intro hc
    rw [execute_limit_order]
    simp only [hp, Option.getD_some]
    simp [hc]

/-- Witness for `limit_execution_condition` at a concrete LIMIT BUY with
limit 450 against quote 420. -/
theorem limit_execution_condition_witness :
    (check_limit_execution orderLim450.side 420 450 = true ↔
      ((orderLim450.side = Side.BUY ∧ (420 : ℚ) ≤ 450) ∨
        (orderLim450.side = Side.SELL ∧ (450 : ℚ) ≤ 420))) ∧
    ((execute_limit_order orderLim450 420 1).1.status = OrderStatus.EXECUTED ↔
      check_limit_execution orderLim450.side 420 450 = true) ∧
    (check_limit_execution orderLim450.side 420 450 = true →
      (execute_limit_order orderLim450 420 1).1.executedPrice = some (round2 450)) :=
  limit_execution_condition orderLim450 420 1 450 rfl

/-- C8: cancelling an unknown order id, or an order already EXECUTED or
CANCELLED, fails (returns no order) and leaves the database untouched;
cancelling an order in NEW or PLACED sets its status to CANCELLED,
returns the updated order, changes nothing else, and a repeated cancel
then fails without further mutation. -/
theorem cancel_order_spec (db : DB) (oid : String) :
    (alookup db.orders oid = none → cancel_order db oid = (db, none)) ∧
    ∀ o, alookup db.orders oid = some o →
      ((o.status = OrderStatus.EXECUTED ∨ o.status = OrderStatus.CANCELLED) →
        cancel_order db oid = (db, none)) ∧
      ((o.status = OrderStatus.NEW ∨ o.status = OrderStatus.PLACED) →
        cancel_order db oid =
          ({ db with
              orders := setKey db.orders oid { o with status := OrderStatus.CANCELLED } },
            some { o with status := OrderStatus.CANCELLED }) ∧
        cancel_order (cancel_order db oid).1 oid =
          ((cancel_order db oid).1, none)) := by
  constructor
  · intro hnone
    rw [cancel_order, hnone]
  · intro o hsome
    constructor
    · intro hterm
      rw [cancel_order, hsome]
      simp [hterm]
    · intro hlive
      have hnt : ¬(o.status = OrderStatus.EXECUTED ∨ o.status = OrderStatus.CANCELLED) := by
        rcases hlive with h | h <;> simp [h]
      have h1 : cancel_order db oid =
          ({ db with
              orders := setKey db.orders oid { o with status := OrderStatus.CANCELLED } },
            some { o with status := OrderStatus.CANCELLED }) := by
        rw [cancel_order, hsome]
        simp [hnt]
      refine ⟨h1, ?_⟩
      rw [h1]
      rw [cancel_order]
      simp [alookup_setKey_self]

/-- C9 (amended): the Order Ledger's `create_order` itself never fails —
for every input, valid or not, it returns an order in status NEW with
executedPrice and executedAt unset. Of the claimed checks, the pydantic
request model rejects quantity ≤ 0 and a supplied limit price ≤ 0, and
rejects a LIMIT order whose price is an explicit null — but a LIMIT order
whose price key is omitted passes validation (the price validator,
declared without `always=True`, is skipped for missing fields): the order
is created in status NEW and submission then fails with an internal
error at the limit comparison. -/
theorem create_and_validate_spec :
    ∀ (oid symbol : String) (q : ℤ) (side : Side) (style : Style)
      (price : Option ℚ) (t : ℕ) (q2 : ℤ) (sideS styleS : String)
      (pr : Option (Option ℚ)),
      ((create_order oid symbol q side style price t).status = OrderStatus.NEW ∧
        (create_order oid symbol q side style price t).executedPrice = none ∧
        (create_order oid symbol q side style price t).executedAt = none) ∧
      (q2 ≤ 0 → validateOrderRequest q2 sideS styleS pr = false) ∧
      (∀ v : ℚ, v ≤ 0 → validateOrderRequest q2 sideS styleS (some (some v)) = false) ∧
      (pyUpper styleS = "LIMIT" →
        validateOrderRequest q2 sideS styleS (some none) = false) ∧
      (0 < q2 → (pyUpper sideS == "BUY" || pyUpper sideS == "SELL") = true →
        validateOrderRequest q2 sideS "LIMIT" none = true) ∧
      (∀ (db : DB) (req : OrderRequest) (quote : ℚ) (oid2 : String) (tC tE : ℕ),
        req.symbol ∈ instruments → req.style = Style.LIMIT → req.price = none →
        (place_order db req quote oid2 tC tE).2.1 =
          Except.error ApiError.internalTypeError ∧
        (get_order (place_order db req quote oid2 tC tE).1 oid2).map Order.status =
          some OrderStatus.NEW) := by
  intro oid symbol q side style price t q2 sideS styleS pr
  refine ⟨⟨rfl, rfl, rfl⟩, ?_, ?_, ?_, ?_, ?_⟩
  · intro hq
    simp [validateOrderRequest, not_lt.mpr hq]
  · intro v hv
    simp [validateOrderRequest, not_lt.mpr hv]
  · intro hstyle
    simp [validateOrderRequest, hstyle]
  · intro hq hside
    have hL : pyUpper "LIMIT" = "LIMIT" := by decide
    simp [validateOrderRequest, hq, hside, hL]
  · intro db req quote oid2 tC tE hsym hstyle hp
    constructor
    · rw [place_order]
      simp [hsym, hstyle, hp]
    · rw [place_order]
      simp [hsym, hstyle, hp, get_order, alookup_setKey_self, create_order]

/-- C9 counterexample: at quantity 0 — an input the claim says `create`
must reject with a ValidationError — the Order Ledger's create operation
succeeds, returning an ordinary NEW order. -/
theorem create_order_accepts_nonpositive_quantity :
    (create_order "o1" "AAPL" 0 Side.BUY Style.MARKET none 0).status =
      OrderStatus.NEW ∧
    (create_order "o1" "AAPL" 0 Side.BUY Style.MARKET none 0).executedPrice = none ∧
    ¬(0 : ℤ) > 0 := ⟨rfl, rfl, by decide⟩

/-- C10: the price layer is total over arbitrary symbols — a symbol absent
from the simulator's state makes `update_price` and the simulator's
`get_price_data` return `None` rather than raising, and (when the real
price lookup is also unavailable) the SDK's `get_live_price` then returns
the hard-coded fallback 150.0 and its `get_price_data` the fixed fallback
quote, leaving the simulator untouched, so no price lookup made during
order submission can fail. -/
theorem price_layer_total_fallback (s : SimState) (r : Rand) (t : ℕ)
    (symbol : String)
    (habs : alookup s.current_prices (pyUpper symbol) = none) :
    (∀ sym2, alookup s.current_prices sym2 = none →
      update_price s sym2 r = none ∧ sim_get_price_data s sym2 r = none) ∧
    sdk_get_live_price s none r t symbol = (s, 150) ∧
    sdk_get_price_data s none r t symbol = (s, fallbackQuote) := by
  have hupd : ∀ sym2, alookup s.current_prices sym2 = none →
      update_price s sym2 r = none := by
    intro sym2 h2
    rw [update_price, h2]
  refine ⟨fun sym2 h2 => ⟨hupd sym2 h2, ?_⟩, ?_, ?_⟩
  · rw [sim_get_price_data, h2]
  · rw [sdk_get_live_price]
    simp only [hupd (pyUpper symbol) habs]
  · rw [sdk_get_price_data]
    simp only [hupd (pyUpper symbol) habs]

/-- Witness for `price_layer_total_fallback`: the freshly initialised
simulator knows nothing about MSFT. -/
theorem price_layer_total_fallback_witness :
    (∀ sym2, alookup (initialSim 1 1 1 0).current_prices sym2 = none →
      update_price (initialSim 1 1 1 0) sym2 ⟨0, 0, 1, 0, false, 1⟩ = none ∧
      sim_get_price_data (initialSim 1 1 1 0) sym2 ⟨0, 0, 1, 0, false, 1⟩ = none) ∧
    sdk_get_live_price (initialSim 1 1 1 0) none ⟨0, 0, 1, 0, false, 1⟩ 0 "MSFT" =
      (initialSim 1 1 1 0, 150) ∧
    sdk_get_price_data (initialSim 1 1 1 0) none ⟨0, 0, 1, 0, false, 1⟩ 0 "MSFT" =
      (initialSim 1 1 1 0, fallbackQuote) :=
  price_layer_total_fallback (initialSim 1 1 1 0) ⟨0, 0, 1, 0, false, 1⟩ 0 "MSFT"
    (by decide)

/-- C6: processing an executed BUY of quantity q at price x sets the new
average cost to x when the prior quantity was 0 and to the weighted
average otherwise, adds q to the position quantity, leaves totalRealizedPnl
unchanged, and records a trade with realized P&L 0. -/
theorem buy_accounting (db : DB) (o : Order) (x : ℚ)
    (hst : o.status = OrderStatus.EXECUTED) (hside : o.side = Side.BUY)
    (hx : o.executedPrice = some x) :
    (process_executed_order db o).2 = none ∧
    (process_executed_order db o).1.total_pnl = db.total_pnl ∧
    (process_executed_order db o).1.trades =
      { id := o.orderId, symbol := o.symbol, qty := o.quantity, price := x,
        side := Side.BUY, pnl := 0, executedAt := o.executedAt } :: db.trades ∧
    alookup (process_executed_order db o).1.portfolio o.symbol =
      some { symbol := (getPos db o.symbol).symbol
             quantity := (getPos db o.symbol).quantity + o.quantity
             avgPrice :=
               if (getPos db o.symbol).quantity = 0 then x
               else (((getPos db o.symbol).quantity : ℚ) * (getPos db o.symbol).avgPrice
                       + (o.quantity : ℚ) * x) /
                    (((getPos db o.symbol).quantity : ℚ) + (o.quantity : ℚ)) } := by
  rw [process_executed_order]
  rcases hpf : alookup db.portfolio o.symbol with _ | p
  · simp [hst, hside, hx, hpf, getPos, alookup_setKey_self, round2_zero]
  · by_cases hq0 : p.quantity = 0 <;>
      simp [hst, hside, hx, hpf, getPos, alookup_setKey_self, round2_zero, hq0]

/-- Witness for `buy_accounting`: buying 1 AAPL at 10 into the empty
ledger succeeds. -/
theorem buy_accounting_witness :
    (process_executed_order dbEmpty buyTen).2 = none :=
  (buy_accounting dbEmpty buyTen 10 rfl rfl rfl).1

/-- C5 (amended): processing an executed SELL of quantity q at price x
against a position with sufficient quantity adds the exact
`(x − averageCost) · q` to totalRealizedPnl, records a trade carrying that
P&L rounded to 2 decimals, decrements the position quantity by q, resets
the average cost to 0 exactly when the new quantity is 0 — and over any
sequence of processed orders, totalRealizedPnl equals the sum of the
per-SELL exact `(executedPrice − averageCostAtSaleTime) · quantity`. -/
theorem sell_accounting (db : DB) (o : Order) (x : ℚ) (p : Position)
    (hst : o.status = OrderStatus.EXECUTED) (hside : o.side = Side.SELL)
    (hx : o.executedPrice = some x)
    (hpos : alookup db.portfolio o.symbol = some p)
    (hq : o.quantity ≤ p.quantity) :
    (process_executed_order db o).2 = none ∧
    (process_executed_order db o).1.total_pnl =
      db.total_pnl + (x - p.avgPrice) * (o.quantity : ℚ) ∧
    (process_executed_order db o).1.trades =
      { id := o.orderId, symbol := o.symbol, qty := o.quantity, price := x,
        side := Side.SELL, pnl := round2 ((x - p.avgPrice) * (o.quantity : ℚ)),
        executedAt := o.executedAt } :: db.trades ∧
    alookup (process_executed_order db o).1.portfolio o.symbol =
      some { symbol := p.symbol
             quantity := p.quantity - o.quantity
             avgPrice := if p.quantity - o.quantity = 0 then 0 else p.avgPrice } ∧
    ∀ os : List Order,
      (processAll db os).total_pnl = db.total_pnl + sumSellPnl db os := by
  rw [process_executed_order]
  have hnl : ¬(p.quantity < o.quantity) := not_lt.mpr hq
  refine ⟨?_, ?_, ?_, ?_, processAll_total db⟩
  · simp [hst, hside, hx, hpos, hnl]
  · simp [hst, hside, hx, hpos, hnl]
  · simp [hst, hside, hx, hpos, hnl]
  · simp [hst, hside, hx, hpos, hnl, alookup_setKey_self]
    split <;> simp

/-- Witness for `sell_accounting`: selling 1 AAPL at 12 against the
position built by buying 1 at 10 and 2 at 11 succeeds. -/
theorem sell_accounting_witness :
    (process_executed_order dbAfterBuys sellTwelve).2 = none :=
  (sell_accounting dbAfterBuys sellTwelve 12 ⟨"AAPL", 3, 32/3⟩ rfl rfl rfl
    (by norm_num [dbAfterBuys, processAll, process_executed_order, dbEmpty,
      buyTen, buyEleven, sellTwelve, alookup, setKey])
    (by norm_num [sellTwelve])).1

/-- C5 counterexample: after buying 1 AAPL at 10 and 2 at 11 (average cost
32/3), an executed SELL of 1 at 12 has exact realized P&L 4/3, but the
appended trade records 133/100 — the rounded value, not the exact one the
claim states. -/
theorem sell_trade_pnl_rounded :
    alookup dbAfterBuys.portfolio "AAPL" = some ⟨"AAPL", 3, 32/3⟩ ∧
    (process_executed_order dbAfterBuys sellTwelve).1.total_pnl =
      dbAfterBuys.total_pnl + ((12 : ℚ) - 32/3) * 1 ∧
    ((process_executed_order dbAfterBuys sellTwelve).1.trades.headD
        ⟨"", "", 0, 0, Side.BUY, 0, none⟩).pnl = 133/100 ∧
    (133 : ℚ)/100 ≠ ((12 : ℚ) - 32/3) * 1 := by
  refine ⟨?_, ?_, ?_, by norm_num⟩ <;>
    norm_num [dbAfterBuys, processAll, process_executed_order, dbEmpty, buyTen,
      buyEleven, sellTwelve, orderSellNoPos, alookup, setKey, round2, round_eq]

/-- Updating one key with an invariant-respecting position preserves the
portfolio invariant of the whole list. -/
theorem setKey_preserves_inv (l : List (String × Position)) (k : String) (v : Position)
    (hl : ∀ pr ∈ l, 0 ≤ (pr : String × Position).2.quantity ∧
      (pr.2.quantity = 0 → pr.2.avgPrice = 0))
    (hv : 0 ≤ v.quantity ∧ (v.quantity = 0 → v.avgPrice = 0)) :
    ∀ pr ∈ setKey l k v, 0 ≤ (pr : String × Position).2.quantity ∧
      (pr.2.quantity = 0 → pr.2.avgPrice = 0) := by
  intro pr hpr
  rcases mem_setKey hpr with h | h
  · rw [h]
    exact hv
  · exact hl pr h

/-- C7: every portfolio operation — BUY processing, SELL processing, and
rejected-SELL processing — preserves the invariant that position
quantities are nonnegative and a position at quantity 0 has average
cost 0 (order quantities are positive behind request validation). -/
theorem portfolio_invariant_preserved (db : DB) (o : Order)
    (hinv : PortfolioInv db) (hq : 0 < o.quantity) :
    PortfolioInv (process_executed_order db o).1 := by
  have hzero : (0 : ℤ) ≤ 0 ∧ ((0 : ℤ) = 0 → (0 : ℚ) = 0) := ⟨le_refl 0, fun _ => rfl⟩
  by_cases hst : o.status = OrderStatus.EXECUTED
  · rcases hpf : alookup db.portfolio o.symbol with _ | p
    · cases hside : o.side
      · -- BUY into a freshly initialised position
        rw [process_executed_order]
        simp only [hst, hside, hpf, ne_eq, not_true_eq_false, if_false,
          alookup_setKey_self, Option.getD_some]
        intro pr hpr
        refine setKey_preserves_inv _ _ _ (setKey_preserves_inv _ _ _ hinv hzero) ?_ pr hpr
        constructor
        · simp
          omega
        · simp
          omega
      · -- SELL against no position: rejected, only the (0,0) entry appears
        rw [process_executed_order]
        simp only [hst, hside, hpf, ne_eq, not_true_eq_false, if_false,
          alookup_setKey_self, Option.getD_some, hq, if_pos]
        intro pr hpr
        exact setKey_preserves_inv _ _ _ hinv hzero pr hpr
    · have hp := hinv _ (mem_of_alookup_eq_some hpf)
      have hp1 : 0 ≤ p.quantity := hp.1
      have hp2 : p.quantity = 0 → p.avgPrice = 0 := hp.2
      cases hside : o.side
      · -- BUY onto an existing position
        rw [process_executed_order]
        simp only [hst, hside, hpf, ne_eq, not_true_eq_false, if_false,
          Option.getD_some]
        intro pr hpr
        refine setKey_preserves_inv _ _ _ hinv ?_ pr hpr
        constructor
        · split <;> simp <;> omega
        · split <;> simp <;> omega
      · by_cases hlt : p.quantity < o.quantity
        · -- SELL rejected: portfolio untouched
          rw [process_executed_order]
          simp only [hst, hside, hpf, ne_eq, not_true_eq_false, if_false,
            Option.getD_some, hlt, if_pos]
          exact hinv
        · -- SELL accepted: quantity shrinks, average cost reset at zero
          rw [process_executed_order]
          simp only [hst, hside, hpf, ne_eq, not_true_eq_false, if_false,
            Option.getD_some, hlt, if_neg]
          intro pr hpr
          refine setKey_preserves_inv _ _ _ hinv ?_ pr hpr
          constructor
          · split <;> (simp; try omega)
          · split <;> (simp; try omega)
  · rw [process_executed_order]
    simp only [hst, ne_eq, if_pos, not_false_eq_true]
    exact hinv

/-- Witness for `portfolio_invariant_preserved`: the empty ledger satisfies
the invariant and buying 1 AAPL keeps it. -/
theorem portfolio_invariant_preserved_witness :
    PortfolioInv (process_executed_order dbEmpty buyTen).1 :=
  portfolio_invariant_preserved dbEmpty buyTen
    (by intro pr hpr; simp [dbEmpty] at hpr) (by decide)

/-- C2 (amended): processing an executed SELL whose quantity exceeds the
position's quantity (0 for an absent symbol) returns the
insufficient-shares error; the order — the one stored by `place_order`,
whose in-place mutation the write-back at the order's id models — is
force-cancelled and no other stored order changes; no trade is appended,
and totalRealizedPnl and every stored position (the traded symbol's
included) are untouched — except that a symbol with no prior entry gains
a zero-quantity, zero-cost entry, created by the lazy initialisation
before the check and invisible in portfolio listings. -/
theorem insufficient_sell_rejection (db : DB) (o : Order)
    (hst : o.status = OrderStatus.EXECUTED) (hside : o.side = Side.SELL)
    (hq : (getPos db o.symbol).quantity < o.quantity) :
    (process_executed_order db o).2 = some ApiError.insufficientShares ∧
    (process_executed_order db o).1.orders =
      setKey db.orders o.orderId { o with status := OrderStatus.CANCELLED } ∧
    alookup (process_executed_order db o).1.orders o.orderId =
      some { o with status := OrderStatus.CANCELLED } ∧
    (∀ oid2, oid2 ≠ o.orderId →
      alookup (process_executed_order db o).1.orders oid2 = alookup db.orders oid2) ∧
    (process_executed_order db o).1.trades = db.trades ∧
    (process_executed_order db o).1.total_pnl = db.total_pnl ∧
    (∀ s2, s2 ≠ o.symbol →
      alookup (process_executed_order db o).1.portfolio s2 =
        alookup db.portfolio s2) ∧
    (∀ p, alookup db.portfolio o.symbol = some p →
      (process_executed_order db o).1.portfolio = db.portfolio) ∧
    (alookup db.portfolio o.symbol = none →
      (process_executed_order db o).1.portfolio =
        setKey db.portfolio o.symbol ⟨o.symbol, 0, 0⟩ ∧
      alookup (process_executed_order db o).1.portfolio o.symbol =
        some ⟨o.symbol, 0, 0⟩) := by
  have hord : (process_executed_order db o).1.orders =
      setKey db.orders o.orderId { o with status := OrderStatus.CANCELLED } :=
    (process_insufficient db o hst hside hq).2
  refine ⟨(process_insufficient db o hst hside hq).1, hord, ?_, ?_, ?_, ?_, ?_, ?_, ?_⟩
  · rw [hord]
    exact alookup_setKey_self _ _ _
  · intro oid2 hne
    rw [hord]
    exact alookup_setKey_ne _ _ _ _ hne
  all_goals
    rw [process_executed_order]
    rcases hpf : alookup db.portfolio o.symbol with _ | p <;>
      rw [getPos, hpf] at hq <;>
      simp only [Option.getD_some, Option.getD_none] at hq <;>
      simp [hst, hside, hpf, hq, alookup_setKey_self, alookup_setKey_ne]
  · intro s2 hne
    exact alookup_setKey_ne _ _ _ _ hne

/-- Witness for `insufficient_sell_rejection`: selling 5 AAPL against the
empty ledger is rejected. -/
theorem insufficient_sell_rejection_witness :
    (process_executed_order dbEmpty orderSellNoPos).2 =
      some ApiError.insufficientShares :=
  (insufficient_sell_rejection dbEmpty orderSellNoPos rfl rfl (by decide)).1

/-- C2 counterexample: Scenario 3 — SELL 5 AAPL with no prior position is
rejected with no trade recorded, yet the set of positions does change:
the ledger gains a fresh zero entry for AAPL, contradicting the claim
that the set of positions is unchanged. -/
theorem insufficient_sell_creates_empty_position :
    (process_executed_order dbEmpty orderSellNoPos).2 =
      some ApiError.insufficientShares ∧
    (process_executed_order dbEmpty orderSellNoPos).1.trades = dbEmpty.trades ∧
    (process_executed_order dbEmpty orderSellNoPos).1.portfolio =
      [("AAPL", ⟨"AAPL", 0, 0⟩)] ∧
    (process_executed_order dbEmpty orderSellNoPos).1.portfolio ≠
      dbEmpty.portfolio := by
  refine ⟨rfl, rfl, rfl, ?_⟩
  decide

/-- C3 (amended): a submitted LIMIT order whose limit condition fails at
the quoted price rests with status NEW — `execute_limit_order` is never
invoked, so the order is neither PLACED nor EXECUTED nor CANCELLED, and
no trade or portfolio mutation occurs. -/
theorem resting_limit_order_stays_new (db : DB) (req : OrderRequest) (quote : ℚ)
    (oid : String) (tC tE : ℕ) (lp : ℚ)
    (hsym : req.symbol ∈ instruments) (hstyle : req.style = Style.LIMIT)
    (hp : req.price = some lp)
    (hcond : check_limit_execution req.side quote lp = false) :
    (get_order (place_order db req quote oid tC tE).1 oid).map Order.status =
      some OrderStatus.NEW ∧
    (place_order db req quote oid tC tE).2.1 = Except.ok OrderStatus.NEW ∧
    (place_order db req quote oid tC tE).2.2 = [OrderStatus.NEW] ∧
    (place_order db req quote oid tC tE).1.trades = db.trades ∧
    (place_order db req quote oid tC tE).1.portfolio = db.portfolio ∧
    (place_order db req quote oid tC tE).1.total_pnl = db.total_pnl := by
  rw [place_order]
  simp [hsym, hstyle, hp, hcond, get_order, alookup_setKey_self, create_order]

/-- Witness for `resting_limit_order_stays_new`: Scenario 4 — LIMIT BUY
TSLA at limit 400 against quote 420 rests. -/
theorem resting_limit_order_stays_new_witness :
    (get_order (place_order dbEmpty reqLim400 420 "o1" 0 1).1 "o1").map
      Order.status = some OrderStatus.NEW :=
  (resting_limit_order_stays_new dbEmpty reqLim400 420 "o1" 0 1 400
    (by decide) rfl rfl (by decide)).1

/-- C3 counterexample: Scenario 4's resting LIMIT BUY (limit 400,
quote 420) is stored with status NEW, not the PLACED the claim states. -/
theorem resting_limit_order_not_placed :
    (get_order (place_order dbEmpty reqLim400 420 "o1" 0 1).1 "o1").map
      Order.status = some OrderStatus.NEW ∧
    OrderStatus.NEW ≠ OrderStatus.PLACED := by
  refine ⟨by decide, by decide⟩

/-- C1 (amended): over a full client-visible run of one order — a
submission followed by any number of cancel calls — the assigned status
sequence is a prefix of `NEW, PLACED, EXECUTED`, or is `NEW, CANCELLED`,
or is the forced `NEW, PLACED, EXECUTED, CANCELLED`; the four-step
sequence occurs only for a SELL whose quantity exceeds the position held
at processing time, so EXECUTED is terminal except for that single forced
cancellation inside executed-order processing, and CANCELLED is terminal
outright: once the stored order is EXECUTED or CANCELLED, cancel calls
change neither the database nor the order. -/
theorem status_trace_of_run (db : DB) (req : OrderRequest) (quote : ℚ)
    (oid : String) (tC tE : ℕ) (n : ℕ)
    (hfresh : alookup db.orders oid = none) :
    amendedAllowedTrace (submitThenCancels db req quote oid tC tE n).2 ∧
    ((submitThenCancels db req quote oid tC tE n).2 =
        [OrderStatus.NEW, OrderStatus.PLACED, OrderStatus.EXECUTED,
          OrderStatus.CANCELLED] →
      req.side = Side.SELL ∧ (getPos db req.symbol).quantity < req.quantity) ∧
    (∀ db2 : DB, ∀ o2 : Order, alookup db2.orders oid = some o2 →
      (o2.status = OrderStatus.EXECUTED ∨ o2.status = OrderStatus.CANCELLED) →
      ∀ m : ℕ, cancelN db2 oid m = (db2, [])) := by
  have hterm : ∀ db2 : DB, ∀ o2 : Order, alookup db2.orders oid = some o2 →
      (o2.status = OrderStatus.EXECUTED ∨ o2.status = OrderStatus.CANCELLED) →
      ∀ m : ℕ, cancelN db2 oid m = (db2, []) := by
    intro db2 o2 hs ht m
    refine cancelN_of_terminal db2 oid m (fun o3 h3 => ?_)
    rw [hs] at h3
    cases h3
    exact ht
  have hsub : (submitThenCancels db req quote oid tC tE n).2 =
      (place_order db req quote oid tC tE).2.2 ++
        (cancelN (place_order db req quote oid tC tE).1 oid n).2 := rfl
  have key : ((submitThenCancels db req quote oid tC tE n).2 = [] ∨
      (submitThenCancels db req quote oid tC tE n).2 = [OrderStatus.NEW] ∨
      (submitThenCancels db req quote oid tC tE n).2 =
        [OrderStatus.NEW, OrderStatus.CANCELLED] ∨
      (submitThenCancels db req quote oid tC tE n).2 =
        [OrderStatus.NEW, OrderStatus.PLACED, OrderStatus.EXECUTED]) ∨
      ((submitThenCancels db req quote oid tC tE n).2 =
        [OrderStatus.NEW, OrderStatus.PLACED, OrderStatus.EXECUTED,
          OrderStatus.CANCELLED] ∧
        req.side = Side.SELL ∧ (getPos db req.symbol).quantity < req.quantity) := by
    by_cases hsym : req.symbol ∈ instruments
    · cases hstyle : req.style with
      | MARKET =>
        set oNew : Order :=
          create_order oid req.symbol req.quantity req.side Style.MARKET req.price tC
          with hoNew
        set db1 : DB := { db with orders := setKey db.orders oid oNew } with hdb1
        have hplace : place_order db req quote oid tC tE =
            execAndProcess db1 oid (execute_market_order oNew quote tE) := by
          rw [place_order]
          simp [hsym, hstyle, hoNew, hdb1]
        have hchar := execAndProcess_char db1 oid
          (execute_market_order oNew quote tE) rfl rfl
        have hr1 : (execute_market_order oNew quote tE).1 =
            { oNew with
                status := OrderStatus.EXECUTED
                executedPrice := some (round2 quote)
                executedAt := some tE } := rfl
        by_cases hfail : req.side = Side.SELL ∧
            (getPos db req.symbol).quantity < req.quantity
        · right
          have hfail2 : (execute_market_order oNew quote tE).1.side = Side.SELL ∧
              (getPos db1 (execute_market_order oNew quote tE).1.symbol).quantity <
                (execute_market_order oNew quote tE).1.quantity := by
            rw [hr1, hoNew]
            exact hfail
          obtain ⟨oS, hoS, hoSt⟩ := Option.map_eq_some'.mp (hchar.2 hfail2).2
          refine ⟨?_, hfail⟩
          rw [hsub, hplace, (hchar.2 hfail2).1, hterm _ _ hoS (Or.inr hoSt) n]
          rfl
        · left
          right; right; right
          have hok2 : ¬((execute_market_order oNew quote tE).1.side = Side.SELL ∧
              (getPos db1 (execute_market_order oNew quote tE).1.symbol).quantity <
                (execute_market_order oNew quote tE).1.quantity) := by
            rw [hr1, hoNew]
            exact hfail
          obtain ⟨oS, hoS, hoSt⟩ := Option.map_eq_some'.mp (hchar.1 hok2).2
          rw [hsub, hplace, (hchar.1 hok2).1, hterm _ _ hoS (Or.inl hoSt) n]
          rfl
      | LIMIT =>
        rcases hp : req.price with _ | lp
        · -- LIMIT submitted without a stored price: the limit comparison
          -- raises before any further transition; the order rests in NEW
          set oNew : Order :=
            create_order oid req.symbol req.quantity req.side Style.LIMIT none tC
            with hoNew
          set db1 : DB := { db with orders := setKey db.orders oid oNew } with hdb1
          have hplace : place_order db req quote oid tC tE =
              (db1, Except.error ApiError.internalTypeError, [OrderStatus.NEW]) := by
            rw [place_order]
            simp [hsym, hstyle, hp, hoNew, hdb1]
          have hstored : alookup db1.orders oid = some oNew := alookup_setKey_self _ _ _
          have hct := cancelN_trace_of_live db1 oid oNew n hstored
            (by rw [hoNew]; simp [create_order])
          by_cases hn : n = 0
          · left; right; left
            subst hn
            simp at hct
            rw [hsub, hplace]
            simp [hct]
          · left; right; right; left
            simp [hn] at hct
            rw [hsub, hplace]
            simp [hct]
        · set oNew : Order :=
            create_order oid req.symbol req.quantity req.side Style.LIMIT (some lp) tC
            with hoNew
          set db1 : DB := { db with orders := setKey db.orders oid oNew } with hdb1
          by_cases hc : check_limit_execution req.side quote lp
          · have hplace : place_order db req quote oid tC tE =
                execAndProcess db1 oid (execute_limit_order oNew quote tE) := by
              rw [place_order]
              simp [hsym, hstyle, hp, hc, hoNew, hdb1]
            have hr1 : (execute_limit_order oNew quote tE).1 =
                { oNew with
                    status := OrderStatus.EXECUTED
                    executedPrice := some (round2 lp)
                    executedAt := some tE } := by
              rw [execute_limit_order, hoNew]
              simp [create_order, hc]
            have htr2 : (execute_limit_order oNew quote tE).2 =
                [OrderStatus.PLACED, OrderStatus.EXECUTED] := by
              rw [execute_limit_order, hoNew]
              simp [create_order, hc]
            have hchar := execAndProcess_char db1 oid
              (execute_limit_order oNew quote tE)
              (by rw [hr1]) (by rw [hr1, hoNew]; simp [create_order])
            by_cases hfail : req.side = Side.SELL ∧
                (getPos db req.symbol).quantity < req.quantity
            · right
              have hfail2 : (execute_limit_order oNew quote tE).1.side = Side.SELL ∧
                  (getPos db1 (execute_limit_order oNew quote tE).1.symbol).quantity <
                    (execute_limit_order oNew quote tE).1.quantity := by
                rw [hr1, hoNew]
                exact hfail
              obtain ⟨oS, hoS, hoSt⟩ := Option.map_eq_some'.mp (hchar.2 hfail2).2
              refine ⟨?_, hfail⟩
              rw [hsub, hplace, (hchar.2 hfail2).1, hterm _ _ hoS (Or.inr hoSt) n,
                htr2]
              rfl
            · left
              right; right; right
              have hok2 : ¬((execute_limit_order oNew quote tE).1.side = Side.SELL ∧
                  (getPos db1 (execute_limit_order oNew quote tE).1.symbol).quantity <
                    (execute_limit_order oNew quote tE).1.quantity) := by
                rw [hr1, hoNew]
                exact hfail
              obtain ⟨oS, hoS, hoSt⟩ := Option.map_eq_some'.mp (hchar.1 hok2).2
              rw [hsub, hplace, (hchar.1 hok2).1, hterm _ _ hoS (Or.inl hoSt) n,
                htr2]
              rfl
          · -- resting LIMIT order: it stays NEW
            have hplace : place_order db req quote oid tC tE =
                (db1, Except.ok OrderStatus.NEW, [OrderStatus.NEW]) := by
              rw [place_order]
              simp [hsym, hstyle, hp, hc, hoNew, hdb1, create_order]
            have hstored : alookup db1.orders oid = some oNew := alookup_setKey_self _ _ _
            have hct := cancelN_trace_of_live db1 oid oNew n hstored
              (by rw [hoNew]; simp [create_order])
            by_cases hn : n = 0
            · left; right; left
              subst hn
              simp at hct
              rw [hsub, hplace]
              simp [hct]
            · left; right; right; left
              simp [hn] at hct
              rw [hsub, hplace]
              simp [hct]
    · have hplace : place_order db req quote oid tC tE =
          (db, Except.error ApiError.invalidSymbol, []) := by
        rw [place_order]
        simp [hsym]
      have hcz := cancelN_of_terminal db oid n (fun o3 h3 => by
        rw [hfresh] at h3
        cases h3)
      left; left
      rw [hsub, hplace]
      simp [hcz]
  refine ⟨?_, ?_, hterm⟩
  · rcases key with (h | h | h | h) | ⟨h, _⟩ <;> rw [h] <;>
      unfold amendedAllowedTrace <;> decide
  · rcases key with (h | h | h | h) | ⟨h, hrest⟩
    · intro hEq
      rw [h] at hEq
      simp at hEq
    · intro hEq
      rw [h] at hEq
      simp at hEq
    · intro hEq
      rw [h] at hEq
      simp at hEq
    · intro hEq
      rw [h] at hEq
      simp at hEq
    · intro _
      exact hrest

/-- Witness for `status_trace_of_run`: the Scenario 3 run (MARKET SELL 5
AAPL against the empty ledger, no cancels) at the fresh id. -/
theorem status_trace_of_run_witness :
    amendedAllowedTrace (submitThenCancels dbEmpty reqSellFive 100 "o1" 0 1 0).2 :=
  (status_trace_of_run dbEmpty reqSellFive 100 "o1" 0 1 0 rfl).1

/-- C1 counterexample: Scenario 3's run assigns the status sequence
`NEW, PLACED, EXECUTED, CANCELLED` — the order reaches EXECUTED and is
then force-cancelled by executed-order processing, so the observed
sequence is not a prefix of `NEW, PLACED, {EXECUTED | CANCELLED}` and
EXECUTED is not terminal. -/
theorem status_trace_counterexample :
    (submitThenCancels dbEmpty reqSellFive 100 "o1" 0 1 0).2 =
      [OrderStatus.NEW, OrderStatus.PLACED, OrderStatus.EXECUTED,
        OrderStatus.CANCELLED] ∧
    ¬claimAllowedTrace
      [OrderStatus.NEW, OrderStatus.PLACED, OrderStatus.EXECUTED,
        OrderStatus.CANCELLED] := by
  constructor
  · decide
  · unfold claimAllowedTrace
    decide

end BajajTrade
